import Mathlib

/-!
Shallow embedding of the population-genetics simulation loops of the
`popgen-lectures` notebooks, and verification of the spec's claims about
them.  Real arithmetic in the notebooks is modelled over `ℚ`; the
pseudo-random draws (numpy's `rng.binomial` / `rng.multinomial`) are
modelled as explicit oracle functions whose outcomes are universally
quantified, with their support properties taken as hypotheses where a
claim needs them.
-/

namespace PopGen

/-! ### Lecture 05: two-locus selection + recombination sweep

The notebook keeps, for each value of the recombination probability `r`,
the four genotype frequencies `p_AA, p_AB, p_BA, p_BB` together with the
four stored single-locus allele frequencies `p_1A, p_1B, p_2A, p_2B`.
`SweepState` mirrors this loop state exactly. -/

structure SweepState where
  pAA : ℚ
  pAB : ℚ
  pBA : ℚ
  pBB : ℚ
  p1A : ℚ
  p1B : ℚ
  p2A : ℚ
  p2B : ℚ
deriving DecidableEq, Repr

/-- The four genotype fitness values `w_AA, w_AB, w_BA, w_BB`
(in the notebook: `w_BA = w_BB = 1 + s`, `w_AA = w_AB = 1`). -/
structure Fitness where
  wAA : ℚ
  wAB : ℚ
  wBA : ℚ
  wBB : ℚ
deriving DecidableEq, Repr

/-- Mean population fitness, as the notebook computes it:
`w_bar = (w_AA * p_AA) + (w_AB * p_AB) + (w_BA * p_BA) + (w_BB * p_BB)`. -/
def w_bar (w : Fitness) (st : SweepState) : ℚ :=
  w.wAA * st.pAA + w.wAB * st.pAB + w.wBA * st.pBA + w.wBB * st.pBB

/-- Build a sweep state from four genotype frequencies, deriving the stored
allele frequencies the way the notebook initialises them
(`p_1A = p_AA + p_AB`, `p_1B = p_BA + p_BB`, `p_2A = p_AA + p_BA`,
`p_2B = p_AB + p_BB`). -/
def mkState (a b c d : ℚ) : SweepState :=
  { pAA := a, pAB := b, pBA := c, pBB := d,
    p1A := a + b, p1B := c + d, p2A := a + c, p2B := b + d }

/-- The stored allele frequencies agree with the sums of the stored genotype
frequencies.  The notebook's initialisation establishes this and each loop
iteration re-establishes it. -/
def consistent (st : SweepState) : Prop :=
  st.p1A = st.pAA + st.pAB ∧ st.p1B = st.pBA + st.pBB ∧
    st.p2A = st.pAA + st.pBA ∧ st.p2B = st.pAB + st.pBB

/-- One iteration of the sweep generation loop of lecture 05:

    w_bar    = (w_AA * p_AA) + (w_AB * p_AB) + (w_BA * p_BA) + (w_BB * p_BB)
    new_p_AA = (1 - r)*w_AA*p_AA/w_bar + r * p_1A * p_2A
    new_p_AB = (1 - r)*w_AB*p_AB/w_bar + r * p_1A * p_2B
    new_p_BA = (1 - r)*w_BA*p_BA/w_bar + r * p_1B * p_2A
    new_p_BB = (1 - r)*w_BB*p_BB/w_bar + r * p_1B * p_2B

followed by overwriting the genotype frequencies and then recomputing the
stored allele frequencies from the new genotype frequencies. -/
def sweepTick (w : Fitness) (r : ℚ) (st : SweepState) : SweepState :=
  let wb := w_bar w st
  let new_pAA := (1 - r) * w.wAA * st.pAA / wb + r * st.p1A * st.p2A
  let new_pAB := (1 - r) * w.wAB * st.pAB / wb + r * st.p1A * st.p2B
  let new_pBA := (1 - r) * w.wBA * st.pBA / wb + r * st.p1B * st.p2A
  let new_pBB := (1 - r) * w.wBB * st.pBB / wb + r * st.p1B * st.p2B
  { pAA := new_pAA, pAB := new_pAB, pBA := new_pBA, pBB := new_pBB,
    p1A := new_pAA + new_pAB, p1B := new_pBA + new_pBB,
    p2A := new_pAA + new_pBA, p2B := new_pAB + new_pBB }

/-- The sweep loop body never raises: in the notebook all quantities are
numpy floats, whose division does not raise an exception (division by zero
yields `inf`/`nan` with a warning), and the loop body contains no check or
`raise`.  The `Except`-typed view of the tick therefore always succeeds. -/
def sweepTickE (w : Fitness) (r : ℚ) (st : SweepState) : Except String SweepState :=
  Except.ok (sweepTick w r st)

/-- `n`-fold iteration of the sweep generation loop body. -/
def sweepIter (w : Fitness) (r : ℚ) : ℕ → SweepState → SweepState
  | 0, st => st
  | n + 1, st => sweepIter w r n (sweepTick w r st)

/-- The sweep driver loop `while p_1B[i] < p_end`, run with `fuel` as an
observation bound: `some st'` means the loop exited (the stored `p_1B`
reached `p_end`) within `fuel` iterations, leaving state `st'`; `none`
means the loop was still running after `fuel` iterations.  The source loop
itself has no generation cap. -/
def sweepLoop (w : Fitness) (r p_end : ℚ) : ℕ → SweepState → Option SweepState
  | 0, st => if p_end ≤ st.p1B then some st else none
  | fuel + 1, st =>
    if p_end ≤ st.p1B then some st else sweepLoop w r p_end fuel (sweepTick w r st)

/-- Modelled from the spec (section 4.2): the selection step maps each
genotype frequency to (its fitness × its current frequency) / mean fitness. -/
def selectionStepSpec (w : Fitness) (st : SweepState) : SweepState :=
  mkState (w.wAA * st.pAA / w_bar w st) (w.wAB * st.pAB / w_bar w st)
    (w.wBA * st.pBA / w_bar w st) (w.wBB * st.pBB / w_bar w st)

/-- Modelled from the spec (section 4.3 / claim C2): one
selection+recombination tick in which the marginal allele frequencies used
by the recombination blend are recomputed from the POST-selection
genotype frequencies. -/
def specRecombStep (w : Fitness) (r : ℚ) (st : SweepState) : SweepState :=
  let sel := selectionStepSpec w st
  mkState ((1 - r) * sel.pAA + r * sel.p1A * sel.p2A)
    ((1 - r) * sel.pAB + r * sel.p1A * sel.p2B)
    ((1 - r) * sel.pBA + r * sel.p1B * sel.p2A)
    ((1 - r) * sel.pBB + r * sel.p1B * sel.p2B)

end PopGen

namespace PopGen

/-! ### Lecture 04 (second notebook in `lecture-05.ipynb`): drift + selection

The replicate loop draws each next generation's count of A alleles as
`rng.binomial(N, p_A)` with
`p_A = n * (1 + s) / (n * (1 + s) + N - n)`,
drawing from the module-level (global) numpy generator. -/

/-- The probability to select an A allele, exactly as computed in the
source: `p_A = n_t[i][j] * (1 + s) / (n_t[i][j] * (1 + s) + N - n_t[i][j])`.
No clamping is applied. -/
def p_A (N : ℕ) (s : ℚ) (n : ℕ) : ℚ :=
  (n : ℚ) * (1 + s) / ((n : ℚ) * (1 + s) + (N : ℚ) - (n : ℚ))

/-- Modelled from the spec (section 4.2 and the lecture 03/04 markdown): the
post-selection probability of a type with fitness `wA` at frequency `p`
against an alternative with fitness `wB`:
`wA * p / (wA * p + wB * (1 - p))`. -/
def selScalarSpec (wA wB p : ℚ) : ℚ :=
  wA * p / (wA * p + wB * (1 - p))

/-- Lecture 03's `evolve(p, w) = w*p/w_bar`.  The notebook leaves
`w_bar = FILL IN` as a classroom exercise, so `w_bar` is taken here as an
explicit argument. -/
def evolve (p w w_b : ℚ) : ℚ :=
  w * p / w_b

/-- One replicate trajectory of the drift+selection loop, of length
`g + 1`, starting from `n` copies of the A allele.  `rng pos m q` is the
outcome of the binomial draw the global numpy generator produces when its
stream is at position `pos` and it is asked for `binomial(m, q)`;
successive draws advance the position, which models the hidden global
generator state shared by all replicates. -/
def driftTraj (N : ℕ) (s : ℚ) (rng : ℕ → ℕ → ℚ → ℕ) : ℕ → ℕ → ℕ → List ℕ
  | 0, _, n => [n]
  | g + 1, pos, n =>
    n :: driftTraj N s rng g (pos + 1) (rng pos N (p_A N s n))

end PopGen

namespace PopGen

/-! ### Lecture 02: infinite-alleles mutation model

State is a list of allele counts.  Each generation:
`new_alleles = rng.binomial(n=2*N, p=u)`;
`new_allele_n = list(rng.multinomial(n=2*N-new_alleles, pvals=allele_n/sum(allele_n)))`;
append `new_alleles` entries equal to 1; keep only the entries `> 0`. -/

/-- The probability vector passed to the multinomial draw:
`np.array(allele_n)/np.sum(allele_n)`. -/
def pvals (allele_n : List ℕ) : List ℚ :=
  allele_n.map (fun c => (c : ℚ) / (allele_n.sum : ℚ))

/-- One generation of the infinite-alleles simulation loop.  `binom m q`
is the outcome of `rng.binomial(n=m, p=q)` and `multinom m qs` the outcome
of `rng.multinomial(n=m, pvals=qs)` for this tick. -/
def iaTick (N : ℕ) (u : ℚ) (binom : ℕ → ℚ → ℕ)
    (multinom : ℕ → List ℚ → List ℕ) (allele_n : List ℕ) : List ℕ :=
  let new_alleles := binom (2 * N) u
  let redis := multinom (2 * N - new_alleles) (pvals allele_n)
  (redis ++ List.replicate new_alleles 1).filter (fun c => decide (0 < c))

end PopGen

namespace PopGen

/-! ### Helper lemmas -/

/-- Discarding the zero entries of a list of naturals does not change its sum. -/
theorem sum_filter_pos (l : List ℕ) :
    (l.filter (fun c => decide (0 < c))).sum = l.sum := by
  induction l with
  | nil => rfl
  | cons a t ih =>
    by_cases ha : 0 < a
    · simp [List.filter_cons, ha, ih]
    · simp [List.filter_cons, ha, ih, Nat.eq_zero_of_not_pos ha]

/-! ### Claims -/

/-- Claim C1: whenever the mean fitness `w̄ = Σ_G w_G · p_G` is positive, the
selection step is deterministic (it is a pure function of the state and the
fitness model) and sends each genotype/allele frequency to
`w_G · p_G / w̄`: the lecture-05 frequency update at `r = 0` is exactly the
spec's selection map; the lecture-04 scalar-count probability `p_A` equals
the spec's two-type selection formula at frequency `n/N`; and lecture 03's
`evolve` with the spec's mean fitness is the same two-type formula. -/
theorem c1_selection_step (w : Fitness) (st : SweepState) (N : ℕ) (s : ℚ)
    (n : ℕ) (p q : ℚ) (hw : 0 < w_bar w st) (hN : 0 < N) (hn : n ≤ N) :
    sweepTick w 0 st = selectionStepSpec w st ∧
      p_A N s n = selScalarSpec (1 + s) 1 ((n : ℚ) / (N : ℚ)) ∧
      evolve p q (q * p + 1 * (1 - p)) = selScalarSpec q 1 p := by
  refine ⟨?_, ?_, rfl⟩
  · simp only [sweepTick, selectionStepSpec, mkState, SweepState.mk.injEq]
    refine ⟨?_, ?_, ?_, ?_, ?_, ?_, ?_, ?_⟩ <;> ring
  · have hN0 : (N : ℚ) ≠ 0 := Nat.cast_ne_zero.2 hN.ne'
    have key : (1 + s) * ((n : ℚ) / (N : ℚ)) + 1 * (1 - (n : ℚ) / (N : ℚ)) =
        ((n : ℚ) * (1 + s) + (N : ℚ) - (n : ℚ)) / (N : ℚ) := by
      field_simp
      ring
    unfold p_A selScalarSpec
    rw [key]
    rcases eq_or_ne ((n : ℚ) * (1 + s) + (N : ℚ) - (n : ℚ)) 0 with hD | hD
    · rw [hD]
      simp
    · field_simp
      ring

/-- Witness for C1 at a concrete positive-mean-fitness input. -/
theorem c1_selection_step_witness :
    0 < w_bar ⟨1, 1, 2, 2⟩ (mkState (1/4) (1/4) (1/4) (1/4)) ∧
      (sweepTick ⟨1, 1, 2, 2⟩ 0 (mkState (1/4) (1/4) (1/4) (1/4)) =
          selectionStepSpec ⟨1, 1, 2, 2⟩ (mkState (1/4) (1/4) (1/4) (1/4)) ∧
        p_A 2 1 1 = selScalarSpec (1 + 1) 1 (((1 : ℕ) : ℚ) / ((2 : ℕ) : ℚ)) ∧
        evolve (1/2) 3 (3 * (1/2) + 1 * (1 - 1/2)) = selScalarSpec 3 1 (1/2)) :=
  ⟨by norm_num [w_bar, mkState],
    c1_selection_step ⟨1, 1, 2, 2⟩ (mkState (1/4) (1/4) (1/4) (1/4)) 2 1 1
      (1/2) 3 (by norm_num [w_bar, mkState]) (by norm_num) (by norm_num)⟩

/-- Claim C2 fails on the code: at a concrete state the code's tick (which
blends with marginal allele frequencies taken from the PRE-selection
genotype frequencies) differs from the claim's formula (marginals
recomputed from the post-selection genotype frequencies).  Concretely, with
`p_AA = p_BA = 1/2`, fitnesses `(1, 1, 2, 2)` and `r = 1/2`, the code gives
`new_p_AA = 5/12` while the claim's formula gives `1/3`. -/
theorem c2_counterexample :
    (sweepTick ⟨1, 1, 2, 2⟩ (1/2) (mkState (1/2) 0 (1/2) 0)).pAA ≠
      (specRecombStep ⟨1, 1, 2, 2⟩ (1/2) (mkState (1/2) 0 (1/2) 0)).pAA := by
  norm_num [sweepTick, specRecombStep, selectionStepSpec, mkState, w_bar]

/-- Claim C2 (amended): each next-generation genotype frequency equals
`(1 − r) · selection_output(G) + r · marginal_freq_locus1(g1) · marginal_freq_locus2(g2)`,
where the marginal allele frequencies are recomputed each tick from the
current PRE-selection genotype frequencies (those at the start of the
tick), not cached across ticks and not taken from the post-selection
frequencies; the stored marginals stay consistent with the genotype
frequencies after every tick. -/
theorem c2_recombination_blend (w : Fitness) (r : ℚ) (st : SweepState)
    (hc : consistent st) :
    ((sweepTick w r st).pAA = (1 - r) * (w.wAA * st.pAA / w_bar w st) +
        r * ((st.pAA + st.pAB) * (st.pAA + st.pBA)) ∧
      (sweepTick w r st).pAB = (1 - r) * (w.wAB * st.pAB / w_bar w st) +
        r * ((st.pAA + st.pAB) * (st.pAB + st.pBB)) ∧
      (sweepTick w r st).pBA = (1 - r) * (w.wBA * st.pBA / w_bar w st) +
        r * ((st.pBA + st.pBB) * (st.pAA + st.pBA)) ∧
      (sweepTick w r st).pBB = (1 - r) * (w.wBB * st.pBB / w_bar w st) +
        r * ((st.pBA + st.pBB) * (st.pAB + st.pBB))) ∧
      consistent (sweepTick w r st) := by
  obtain ⟨e1, e2, e3, e4⟩ := hc
  refine ⟨⟨?_, ?_, ?_, ?_⟩, rfl, rfl, rfl, rfl⟩ <;>
    · simp only [sweepTick, e1, e2, e3, e4]
      ring

/-- Witness for C2 (amended) at a concrete consistent state. -/
theorem c2_recombination_blend_witness :
    consistent (mkState (1/2) 0 (1/2) 0) ∧
      (((sweepTick ⟨1, 1, 2, 2⟩ (1/3) (mkState (1/2) 0 (1/2) 0)).pAA =
          (1 - 1/3) * (Fitness.wAA ⟨1, 1, 2, 2⟩ * (mkState (1/2) 0 (1/2) 0).pAA /
              w_bar ⟨1, 1, 2, 2⟩ (mkState (1/2) 0 (1/2) 0)) +
            (1/3) * (((mkState (1/2) 0 (1/2) 0).pAA + (mkState (1/2) 0 (1/2) 0).pAB) *
              ((mkState (1/2) 0 (1/2) 0).pAA + (mkState (1/2) 0 (1/2) 0).pBA)) ∧
        (sweepTick ⟨1, 1, 2, 2⟩ (1/3) (mkState (1/2) 0 (1/2) 0)).pAB =
          (1 - 1/3) * (Fitness.wAB ⟨1, 1, 2, 2⟩ * (mkState (1/2) 0 (1/2) 0).pAB /
              w_bar ⟨1, 1, 2, 2⟩ (mkState (1/2) 0 (1/2) 0)) +
            (1/3) * (((mkState (1/2) 0 (1/2) 0).pAA + (mkState (1/2) 0 (1/2) 0).pAB) *
              ((mkState (1/2) 0 (1/2) 0).pAB + (mkState (1/2) 0 (1/2) 0).pBB)) ∧
        (sweepTick ⟨1, 1, 2, 2⟩ (1/3) (mkState (1/2) 0 (1/2) 0)).pBA =
          (1 - 1/3) * (Fitness.wBA ⟨1, 1, 2, 2⟩ * (mkState (1/2) 0 (1/2) 0).pBA /
              w_bar ⟨1, 1, 2, 2⟩ (mkState (1/2) 0 (1/2) 0)) +
            (1/3) * (((mkState (1/2) 0 (1/2) 0).pBA + (mkState (1/2) 0 (1/2) 0).pBB) *
              ((mkState (1/2) 0 (1/2) 0).pAA + (mkState (1/2) 0 (1/2) 0).pBA)) ∧
        (sweepTick ⟨1, 1, 2, 2⟩ (1/3) (mkState (1/2) 0 (1/2) 0)).pBB =
          (1 - 1/3) * (Fitness.wBB ⟨1, 1, 2, 2⟩ * (mkState (1/2) 0 (1/2) 0).pBB /
              w_bar ⟨1, 1, 2, 2⟩ (mkState (1/2) 0 (1/2) 0)) +
            (1/3) * (((mkState (1/2) 0 (1/2) 0).pBA + (mkState (1/2) 0 (1/2) 0).pBB) *
              ((mkState (1/2) 0 (1/2) 0).pAB + (mkState (1/2) 0 (1/2) 0).pBB))) ∧
        consistent (sweepTick ⟨1, 1, 2, 2⟩ (1/3) (mkState (1/2) 0 (1/2) 0))) :=
  ⟨by simp [consistent, mkState],
    c2_recombination_blend ⟨1, 1, 2, 2⟩ (1/3) (mkState (1/2) 0 (1/2) 0)
      (by simp [consistent, mkState])⟩

/-- Claim C3: for a valid state (consistent stored marginals, non-negative
genotype frequencies summing to 1), any fitness model with positive mean
fitness and any `r ∈ [0,1]`, one selection+recombination tick yields four
genotype frequencies summing exactly to 1 over `ℚ`. -/
theorem c3_frequency_conservation (w : Fitness) (r : ℚ) (st : SweepState)
    (hc : consistent st)
    (h0 : 0 ≤ st.pAA) (h1 : 0 ≤ st.pAB) (h2 : 0 ≤ st.pBA) (h3 : 0 ≤ st.pBB)
    (hsum : st.pAA + st.pAB + st.pBA + st.pBB = 1)
    (hw : 0 < w_bar w st) (hr0 : 0 ≤ r) (hr1 : r ≤ 1) :
    (sweepTick w r st).pAA + (sweepTick w r st).pAB + (sweepTick w r st).pBA +
      (sweepTick w r st).pBB = 1 := by
  obtain ⟨e1, e2, e3, e4⟩ := hc
  have hs2 : (st.pAA + st.pAB + st.pBA + st.pBB) ^ 2 = 1 := by rw [hsum]; ring
  have expand : (sweepTick w r st).pAA + (sweepTick w r st).pAB +
      (sweepTick w r st).pBA + (sweepTick w r st).pBB =
      (1 - r) * (w_bar w st / w_bar w st) +
        r * ((st.pAA + st.pAB + st.pBA + st.pBB) ^ 2) := by
    simp only [sweepTick]
    rw [e1, e2, e3, e4]
    unfold w_bar
    ring
  rw [expand, div_self (ne_of_gt hw), hs2]
  ring

/-- Witness for C3 at a concrete valid state. -/
theorem c3_frequency_conservation_witness :
    consistent (mkState (1/4) (1/4) (1/4) (1/4)) ∧
      (0:ℚ) ≤ (mkState (1/4) (1/4) (1/4) (1/4)).pAA ∧
      (mkState (1/4) (1/4) (1/4) (1/4)).pAA + (mkState (1/4) (1/4) (1/4) (1/4)).pAB +
        (mkState (1/4) (1/4) (1/4) (1/4)).pBA + (mkState (1/4) (1/4) (1/4) (1/4)).pBB = 1 ∧
      0 < w_bar ⟨1, 1, 2, 2⟩ (mkState (1/4) (1/4) (1/4) (1/4)) ∧
      (sweepTick ⟨1, 1, 2, 2⟩ (1/2) (mkState (1/4) (1/4) (1/4) (1/4))).pAA +
        (sweepTick ⟨1, 1, 2, 2⟩ (1/2) (mkState (1/4) (1/4) (1/4) (1/4))).pAB +
        (sweepTick ⟨1, 1, 2, 2⟩ (1/2) (mkState (1/4) (1/4) (1/4) (1/4))).pBA +
        (sweepTick ⟨1, 1, 2, 2⟩ (1/2) (mkState (1/4) (1/4) (1/4) (1/4))).pBB = 1 :=
  ⟨by simp [consistent, mkState], by norm_num [mkState], by norm_num [mkState],
    by norm_num [w_bar, mkState],
    c3_frequency_conservation ⟨1, 1, 2, 2⟩ (1/2) (mkState (1/4) (1/4) (1/4) (1/4))
      (by simp [consistent, mkState]) (by norm_num [mkState]) (by norm_num [mkState])
      (by norm_num [mkState]) (by norm_num [mkState]) (by norm_num [mkState])
      (by norm_num [w_bar, mkState]) (by norm_num) (by norm_num)⟩

/-- Claim C6 fails on the code: with every fitness zero (so
`w̄ = 0 ≤ 0`, every present genotype has zero fitness) the selection step
does not fail with a domain error — the loop body has no check and numpy
float division does not raise — it simply returns a (numerically junk)
state. -/
theorem c6_counterexample :
    w_bar ⟨0, 0, 0, 0⟩ (mkState 1 0 0 0) = 0 ∧
      (sweepTickE ⟨0, 0, 0, 0⟩ 0 (mkState 1 0 0 0)).isOk = true :=
  ⟨by norm_num [w_bar, mkState], rfl⟩

/-- Claim C6 (amended): the selection step performs no domain check and
never fails, even when `w̄ ≤ 0`; under the precondition that all fitnesses
and frequencies are non-negative and at least one genotype with positive
frequency has positive fitness, `w̄ > 0` holds, so the (unchecked) division
in the step is by a positive `w̄`. -/
theorem c6_mean_fitness_positive (w : Fitness) (r : ℚ) (st : SweepState)
    (hwAA : 0 ≤ w.wAA) (hwAB : 0 ≤ w.wAB) (hwBA : 0 ≤ w.wBA) (hwBB : 0 ≤ w.wBB)
    (h0 : 0 ≤ st.pAA) (h1 : 0 ≤ st.pAB) (h2 : 0 ≤ st.pBA) (h3 : 0 ≤ st.pBB)
    (hpos : (0 < st.pAA ∧ 0 < w.wAA) ∨ (0 < st.pAB ∧ 0 < w.wAB) ∨
      (0 < st.pBA ∧ 0 < w.wBA) ∨ (0 < st.pBB ∧ 0 < w.wBB)) :
    0 < w_bar w st ∧ sweepTickE w r st = Except.ok (sweepTick w r st) := by
  refine ⟨?_, rfl⟩
  unfold w_bar
  rcases hpos with ⟨hp, hq⟩ | ⟨hp, hq⟩ | ⟨hp, hq⟩ | ⟨hp, hq⟩ <;>
    nlinarith [mul_pos hq hp, mul_nonneg hwAA h0, mul_nonneg hwAB h1,
      mul_nonneg hwBA h2, mul_nonneg hwBB h3]

/-- Witness for C6 (amended) at a concrete input. -/
theorem c6_mean_fitness_positive_witness :
    ((0:ℚ) ≤ 1 ∧ (0:ℚ) ≤ 2 ∧ (0 < (mkState 1 0 0 0).pAA ∧ (0:ℚ) < 1)) ∧
      (0 < w_bar ⟨1, 1, 2, 2⟩ (mkState 1 0 0 0) ∧
        sweepTickE ⟨1, 1, 2, 2⟩ 0 (mkState 1 0 0 0) =
          Except.ok (sweepTick ⟨1, 1, 2, 2⟩ 0 (mkState 1 0 0 0))) :=
  ⟨⟨by norm_num, by norm_num, by norm_num [mkState], by norm_num⟩,
    c6_mean_fitness_positive ⟨1, 1, 2, 2⟩ 0 (mkState 1 0 0 0)
      (by norm_num) (by norm_num) (by norm_num) (by norm_num)
      (by norm_num [mkState]) (by norm_num [mkState]) (by norm_num [mkState])
      (by norm_num [mkState]) (Or.inl ⟨by norm_num [mkState], by norm_num⟩)⟩

/-- If the favored allele is absent (`p_BA = p_BB = 0` and stored
`p_1B = 0`), one sweep tick keeps it absent. -/
theorem sweepTick_lost (w : Fitness) (r : ℚ) (st : SweepState)
    (hBA : st.pBA = 0) (hBB : st.pBB = 0) (h1B : st.p1B = 0) :
    (sweepTick w r st).pBA = 0 ∧ (sweepTick w r st).pBB = 0 ∧
      (sweepTick w r st).p1B = 0 := by
  simp only [sweepTick, hBA, hBB, h1B]
  norm_num

/-- If the favored allele is absent, the sweep `while` loop never exits
(for a positive threshold). -/
theorem sweepLoop_lost (w : Fitness) (r p_end : ℚ) (hpe : 0 < p_end) :
    ∀ fuel (st : SweepState), st.pBA = 0 → st.pBB = 0 → st.p1B = 0 →
      sweepLoop w r p_end fuel st = none := by
  intro fuel
  induction fuel with
  | zero =>
    intro st hBA hBB h1B
    simp only [sweepLoop, h1B]
    rw [if_neg (not_le.2 hpe)]
  | succ n ih =>
    intro st hBA hBB h1B
    obtain ⟨a, b, c⟩ := sweepTick_lost w r st hBA hBB h1B
    simp only [sweepLoop, h1B]
    rw [if_neg (not_le.2 hpe)]
    exact ih _ a b c

/-- Claim C7 fails on the code: the sweep generation loop has no maximum
generation count; with the source's fitness values (`s = 0.01`) and
threshold (`p_end = 0.999`) but the favored allele absent, the loop never
halts at any fuel bound — it loops forever rather than distinguishing a
cap-halt from a threshold-halt. -/
theorem c7_counterexample :
    ¬ ∃ fuel st', sweepLoop ⟨1, 1, 1 + 1/100, 1 + 1/100⟩ 0 (999/1000) fuel
      (mkState (1/2) (1/2) 0 0) = some st' := by
  rintro ⟨fuel, st', h⟩
  rw [sweepLoop_lost _ _ _ (by norm_num) fuel _ (by norm_num [mkState])
    (by norm_num [mkState]) (by norm_num [mkState])] at h
  exact Option.noConfusion h

/-- Claim C7 (amended): the sweep driver's only stopping rule is the
frequency threshold — there is no generation cap and no distinction between
halt reasons.  Whenever the loop halts, the final state is an iterate of
the generation update whose stored `p_1B` has reached `p_end`; when the
threshold is never reached the loop runs forever. -/
theorem c7_halt_characterisation (w : Fitness) (r p_end : ℚ) (fuel : ℕ)
    (st st' : SweepState) (h : sweepLoop w r p_end fuel st = some st') :
    p_end ≤ st'.p1B ∧ ∃ n, n ≤ fuel ∧ st' = sweepIter w r n st := by
  induction fuel generalizing st with
  | zero =>
    simp only [sweepLoop] at h
    by_cases hc : p_end ≤ st.p1B
    · rw [if_pos hc] at h
      obtain rfl := Option.some.inj h
      exact ⟨hc, 0, le_refl 0, rfl⟩
    · rw [if_neg hc] at h
      exact Option.noConfusion h
  | succ n ih =>
    simp only [sweepLoop] at h
    by_cases hc : p_end ≤ st.p1B
    · rw [if_pos hc] at h
      obtain rfl := Option.some.inj h
      exact ⟨hc, 0, Nat.zero_le _, rfl⟩
    · rw [if_neg hc] at h
      obtain ⟨h1, m, hm, he⟩ := ih _ h
      exact ⟨h1, m + 1, Nat.succ_le_succ hm, he⟩

/-- Witness for C7 (amended): a state already past the threshold halts at
once and is the 0-th iterate. -/
theorem c7_halt_characterisation_witness :
    sweepLoop ⟨1, 1, 1 + 1/100, 1 + 1/100⟩ 0 (1/2) 0 (mkState 0 0 (1/2) (1/2)) =
        some (mkState 0 0 (1/2) (1/2)) ∧
      ((1:ℚ)/2 ≤ (mkState 0 0 (1/2) (1/2)).p1B ∧
        ∃ n, n ≤ 0 ∧ mkState 0 0 (1/2) (1/2) =
          sweepIter ⟨1, 1, 1 + 1/100, 1 + 1/100⟩ 0 n (mkState 0 0 (1/2) (1/2))) :=
  ⟨by simp only [sweepLoop]; rw [if_pos (by norm_num [mkState])],
    c7_halt_characterisation ⟨1, 1, 1 + 1/100, 1 + 1/100⟩ 0 (1/2) 0
      (mkState 0 0 (1/2) (1/2)) (mkState 0 0 (1/2) (1/2))
      (by simp only [sweepLoop]; rw [if_pos (by norm_num [mkState])])⟩

/-- Claim C10: in the deterministic sweep update with fitnesses
`w_BA = w_BB = 1 + s`, `w_AA = w_AB = 1`, `s > 0`, and `r ∈ [0,1)`, from a
valid state in which the beneficial-allele frequency
`p_1B = p_BA + p_BB` lies strictly between 0 and 1, one tick strictly
increases `p_1B`: the `while p_1B < p_end` loop makes strict progress. -/
theorem c10_strict_progress (s r : ℚ) (st : SweepState)
    (hc : consistent st)
    (h0 : 0 ≤ st.pAA) (h1 : 0 ≤ st.pAB) (h2 : 0 ≤ st.pBA) (h3 : 0 ≤ st.pBB)
    (hsum : st.pAA + st.pAB + st.pBA + st.pBB = 1)
    (hs : 0 < s) (hr0 : 0 ≤ r) (hr1 : r < 1)
    (hq0 : 0 < st.pBA + st.pBB) (hq1 : st.pBA + st.pBB < 1) :
    st.p1B < (sweepTick ⟨1, 1, 1 + s, 1 + s⟩ r st).p1B := by
  obtain ⟨e1, e2, e3, e4⟩ := hc
  set q : ℚ := st.pBA + st.pBB with hq
  have hW : w_bar ⟨1, 1, 1 + s, 1 + s⟩ st = 1 + s * q := by
    unfold w_bar
    linear_combination hsum
  have hWpos : (0:ℚ) < 1 + s * q := by nlinarith
  have hnew : (sweepTick ⟨1, 1, 1 + s, 1 + s⟩ r st).p1B =
      (1 - r) * ((1 + s) * q / (1 + s * q)) + r * q := by
    simp only [sweepTick, e2, e3, e4, hW]
    linear_combination (r * q) * hsum
  have h2' : q * (1 + s * q) < (1 + s) * q := by
    nlinarith [mul_pos (mul_pos hs hq0) (sub_pos.2 hq1)]
  have h3' : q < (1 + s) * q / (1 + s * q) := (lt_div_iff₀ hWpos).2 h2'
  have h4' := mul_lt_mul_of_pos_left h3' (by linarith : (0:ℚ) < 1 - r)
  rw [hnew, e2]
  linarith

/-- Witness for C10 at a concrete valid interior state. -/
theorem c10_strict_progress_witness :
    consistent (mkState (1/4) (1/4) (1/4) (1/4)) ∧
      (mkState (1/4) (1/4) (1/4) (1/4)).pAA + (mkState (1/4) (1/4) (1/4) (1/4)).pAB +
        (mkState (1/4) (1/4) (1/4) (1/4)).pBA + (mkState (1/4) (1/4) (1/4) (1/4)).pBB = 1 ∧
      0 < (mkState (1/4) (1/4) (1/4) (1/4)).pBA + (mkState (1/4) (1/4) (1/4) (1/4)).pBB ∧
      (mkState (1/4) (1/4) (1/4) (1/4)).pBA + (mkState (1/4) (1/4) (1/4) (1/4)).pBB < 1 ∧
      (mkState (1/4) (1/4) (1/4) (1/4)).p1B <
        (sweepTick ⟨1, 1, 1 + 1, 1 + 1⟩ (1/2) (mkState (1/4) (1/4) (1/4) (1/4))).p1B :=
  ⟨by simp [consistent, mkState], by norm_num [mkState], by norm_num [mkState],
    by norm_num [mkState],
    c10_strict_progress 1 (1/2) (mkState (1/4) (1/4) (1/4) (1/4))
      (by simp [consistent, mkState]) (by norm_num [mkState]) (by norm_num [mkState])
      (by norm_num [mkState]) (by norm_num [mkState]) (by norm_num [mkState])
      (by norm_num) (by norm_num) (by norm_num) (by norm_num [mkState])
      (by norm_num [mkState])⟩

/-- Claim C4: for any outcome of the random draws — any binomial outcome
`k ≤ 2N` and any multinomial outcome summing to `2N − k` — one
infinite-alleles mutation tick (redistribution, appending the `k` new
count-1 alleles, removing zero-count entries) produces counts summing to
exactly `2N`. -/
theorem c4_count_conservation (N : ℕ) (u : ℚ) (binom : ℕ → ℚ → ℕ)
    (multinom : ℕ → List ℚ → List ℕ) (allele_n : List ℕ)
    (hbin : binom (2 * N) u ≤ 2 * N)
    (hmul : (multinom (2 * N - binom (2 * N) u) (pvals allele_n)).sum =
      2 * N - binom (2 * N) u) :
    (iaTick N u binom multinom allele_n).sum = 2 * N := by
  unfold iaTick
  rw [sum_filter_pos, List.sum_append, hmul, List.sum_replicate, smul_eq_mul,
    mul_one, Nat.sub_add_cancel hbin]

/-- Witness for C4 with concrete draw oracles. -/
theorem c4_count_conservation_witness :
    (fun _ _ => 1 : ℕ → ℚ → ℕ) (2 * 2) (1/2) ≤ 2 * 2 ∧
      ((fun n _ => [n] : ℕ → List ℚ → List ℕ)
          (2 * 2 - (fun _ _ => 1 : ℕ → ℚ → ℕ) (2 * 2) (1/2)) (pvals [4])).sum =
        2 * 2 - (fun _ _ => 1 : ℕ → ℚ → ℕ) (2 * 2) (1/2) ∧
      (iaTick 2 (1/2) (fun _ _ => 1) (fun n _ => [n]) [4]).sum = 2 * 2 :=
  ⟨by norm_num, by norm_num,
    c4_count_conservation 2 (1/2) (fun _ _ => 1) (fun n _ => [n]) [4]
      (by norm_num) (by norm_num)⟩

/-- Claim C5: one infinite-alleles tick is exactly: draw `k` from the
binomial oracle with parameters `(2N, u)`; draw the redistribution of the
remaining `2N − k` individuals from the multinomial oracle weighted by the
current allele frequencies `pvals allele_n`; append `k` new entries each
with count 1; and remove the zero-count entries, so the stored result is
the positive redistribution entries followed by the `k` new count-1
alleles, and no zero-count entry remains. -/
theorem c5_mutation_tick_steps (N : ℕ) (u : ℚ) (binom : ℕ → ℚ → ℕ)
    (multinom : ℕ → List ℚ → List ℕ) (allele_n : List ℕ) :
    iaTick N u binom multinom allele_n =
        (multinom (2 * N - binom (2 * N) u) (pvals allele_n)).filter
          (fun c => decide (0 < c)) ++ List.replicate (binom (2 * N) u) 1 ∧
      ∀ c ∈ iaTick N u binom multinom allele_n, 0 < c := by
  constructor
  · unfold iaTick
    rw [List.filter_append]
    congr 1
    rw [List.filter_eq_self]
    intro a ha
    rw [List.eq_of_mem_replicate ha]
    decide
  · intro c hc
    unfold iaTick at hc
    rw [List.mem_filter] at hc
    simpa using hc.2

/-- Claim C8 fails on the code: the notebooks draw from the hidden global
numpy generator and accept no seed, so two successive runs with identical
configuration and mode (here: `N = 2`, `s = 0`, one generation, starting
from one A allele) consume different segments of the single global draw
stream and produce different histories — there is no injected seed making
them reproduce each other. -/
theorem c8_counterexample :
    driftTraj 2 0 (fun pos _ _ => pos) 1 0 1 ≠
      driftTraj 2 0 (fun pos _ _ => pos) 1 1 1 := by
  simp [driftTraj]

/-- Claim C8 (amended): each run is a deterministic function of the
configuration and of the draw outcomes it consumes — two runs whose draw
oracles agree on the consumed stream segment produce identical
generation-by-generation histories; but the draws come from the hidden
global generator's current position, not from an injected per-run seed. -/
theorem c8_deterministic_in_draws (N : ℕ) (s : ℚ) (g pos1 pos2 n : ℕ)
    (rng1 rng2 : ℕ → ℕ → ℚ → ℕ)
    (h : ∀ k, k < g → ∀ m q, rng1 (pos1 + k) m q = rng2 (pos2 + k) m q) :
    driftTraj N s rng1 g pos1 n = driftTraj N s rng2 g pos2 n := by
  induction g generalizing pos1 pos2 n with
  | zero => rfl
  | succ g ih =>
    simp only [driftTraj]
    have h0 : rng1 pos1 N (p_A N s n) = rng2 pos2 N (p_A N s n) := by
      simpa using h 0 (Nat.succ_pos g) N (p_A N s n)
    rw [h0]
    refine congrArg _ (ih (pos1 + 1) (pos2 + 1) _ (fun k hk m q => ?_))
    have e1 : pos1 + 1 + k = pos1 + (k + 1) := by omega
    have e2 : pos2 + 1 + k = pos2 + (k + 1) := by omega
    rw [e1, e2]
    exact h (k + 1) (by omega) m q

/-- Witness for C8 (amended): two oracles agreeing on the consumed segment
(positions 5 and 9 here) yield the same one-generation history. -/
theorem c8_deterministic_in_draws_witness :
    (∀ k, k < 1 → ∀ (m : ℕ) (q : ℚ),
        (fun pos _ _ => pos - 5 : ℕ → ℕ → ℚ → ℕ) (5 + k) m q =
          (fun pos _ _ => pos - 9 : ℕ → ℕ → ℚ → ℕ) (9 + k) m q) ∧
      driftTraj 2 0 (fun pos _ _ => pos - 5) 1 5 1 =
        driftTraj 2 0 (fun pos _ _ => pos - 9) 1 9 1 :=
  ⟨fun k hk m q => by show 5 + k - 5 = 9 + k - 9; omega,
    c8_deterministic_in_draws 2 0 1 5 9 1 (fun pos _ _ => pos - 5)
      (fun pos _ _ => pos - 9) (fun k hk m q => by show 5 + k - 5 = 9 + k - 9; omega)⟩

/-- Claim C9 fails on the code: the probability `p_A` is passed to the
binomial draw with no clamping.  At `N = 3`, `s = -2`, current count
`n = 1` the code computes `p_A = -1 ∉ [0,1]` and hands exactly that value
to the draw: an oracle that reports whether its probability argument is
negative observes `-1`. -/
theorem c9_counterexample :
    p_A 3 (-2) 1 = -1 ∧
      driftTraj 3 (-2) (fun _ _ q => if q < 0 then 7 else 0) 1 0 1 = [1, 7] := by
  have hpa : p_A 3 (-2) 1 = -1 := by norm_num [p_A]
  refine ⟨hpa, ?_⟩
  simp [driftTraj, hpa]

/-- Claim C9 (amended): the code does not clamp `p_A`; instead, for every
count `0 ≤ n ≤ N` with `N > 0` and every non-negative selection
coefficient, the computed `p_A = n(1+s) / (n(1+s) + N − n)` already lies in
`[0,1]` exactly, so the binomial draw's argument is a valid probability in
exact arithmetic; clamping would only matter for floating-point drift or
`s < -1`. -/
theorem c9_pA_in_unit_interval (N : ℕ) (s : ℚ) (n : ℕ)
    (hN : 0 < N) (hn : n ≤ N) (hs : 0 ≤ s) :
    0 ≤ p_A N s n ∧ p_A N s n ≤ 1 := by
  have hn0 : (0:ℚ) ≤ (n : ℚ) := Nat.cast_nonneg n
  have hN0 : (0:ℚ) < (N : ℚ) := by exact_mod_cast hN
  have hnN : ((n : ℚ)) ≤ (N : ℚ) := by exact_mod_cast hn
  have hden : (0:ℚ) < (n : ℚ) * (1 + s) + (N : ℚ) - (n : ℚ) := by
    nlinarith [mul_nonneg hn0 hs]
  constructor
  · unfold p_A
    exact div_nonneg (by nlinarith) hden.le
  · unfold p_A
    rw [div_le_one hden]
    nlinarith [mul_nonneg hn0 hs]

/-- Witness for C9 (amended) at a concrete input. -/
theorem c9_pA_in_unit_interval_witness :
    0 < 2 ∧ 1 ≤ 2 ∧ (0:ℚ) ≤ 1 ∧ (0 ≤ p_A 2 1 1 ∧ p_A 2 1 1 ≤ 1) :=
  ⟨by norm_num, by norm_num, by norm_num,
    c9_pA_in_unit_interval 2 1 1 (by norm_num) (by norm_num) (by norm_num)⟩

end PopGen
